import Mathlib

/-!
Verification development for the reaction-generation core of the
Composite-Peptide-Macrocycle-Generator repository.

The development shallowly embeds the parts of `macrocycles/utils.py`
(the `Base.merge` fragment-merge primitive and its helper
`Base.update_hydrogen_counts`) and `macrocycles/reactions.py`
(the `Reaction` memoization abstraction, the four reaction variants
`FriedelCafts`, `TsujiTrost`, `PictetSpangler`, `PyrroloIndolene`,
and the `ReactionGenerator` driver) as executable Lean definitions.

Embedding conventions:
* RDKit molecules are modelled as a list of heavy atoms plus a bond
  list.  Hydrogens are not graph nodes, so `Chem.rdmolops.RemoveHs`
  is the identity in the model.
* RDKit's implicit-hydrogen bookkeeping is modelled by the standard
  organic-subset rule: an atom's implicit hydrogen count is its
  element's default valence minus the valence consumed by bonds and
  by explicitly stored hydrogens, clamped at zero.  The per-atom
  field `bondValence` caches the integer valence consumed by the
  atom's bonds (RDKit computes this from the bond orders; aromatic
  bonds contribute fractionally there, and the field stores the
  resulting integer seen by the implicit-H computation).
* `Chem.SanitizeMol` is modelled as the valence check: it fails when
  some non-wildcard atom's bond valence plus explicit hydrogens
  exceeds the element's default valence.
* The final `Chem.MolFromSmiles(Chem.MolToSmiles(...))` canonical
  re-parse preserves every per-atom attribute discussed by the
  claims (map numbers, hydrogen counts, chiral tags), and is
  modelled as the identity.
* Python exceptions are modelled with `Except`.
-/

namespace CPMG

/-- Chemical elements occurring in the code paths under study.
`X` is the wildcard/dummy atom (atomic number 0). -/
inductive Element where
  | C
  | N
  | O
  | S
  | X
deriving DecidableEq, Repr

/-- RDKit hybridization states (only SP3 is ever inspected by the code). -/
inductive Hyb where
  | SP
  | SP2
  | SP3
  | othr
deriving DecidableEq, Repr

/-- RDKit tetrahedral chiral tags. -/
inductive ChiralTag where
  | unspecified
  | CW
  | CCW
deriving DecidableEq, Repr

/-- The `stereo` argument of `Base.merge` (either the string 'CW' or 'CCW'). -/
inductive Stereo where
  | CW
  | CCW
deriving DecidableEq, Repr

/-- The chiral tag that `Base.merge` sets for a given `stereo` argument. -/
def Stereo.tag : Stereo → ChiralTag
  | .CW => .CW
  | .CCW => .CCW

/-- An RDKit atom: element, aromaticity, atom map number, explicitly
stored hydrogens, valence consumed by bonds, hybridization, chiral tag. -/
structure Atom where
  element : Element
  isAromatic : Bool
  mapNum : Nat
  numExplicitHs : Nat
  bondValence : Nat
  hybridization : Hyb
  chiralTag : ChiralTag
deriving DecidableEq, Repr

instance : Inhabited Atom :=
  ⟨⟨Element.C, false, 0, 0, 0, Hyb.othr, ChiralTag.unspecified⟩⟩

/-- Default valence used for the implicit-hydrogen computation
(wildcard atoms take no implicit hydrogens). -/
def defaultValence : Element → Nat
  | .C => 4
  | .N => 3
  | .O => 2
  | .S => 2
  | .X => 0

/-- RDKit `GetNumImplicitHs`: default valence minus consumed valence, clamped at 0. -/
def Atom.implicitHs (a : Atom) : Nat :=
  defaultValence a.element - (a.bondValence + a.numExplicitHs)

/-- RDKit `GetTotalNumHs`: explicit plus implicit hydrogens. -/
def Atom.totalNumHs (a : Atom) : Nat :=
  a.numExplicitHs + a.implicitHs

/-- Valence admissibility of one atom, as checked by `Chem.SanitizeMol`
(dummy atoms are exempt from the valence check). -/
def Atom.valenceOk (a : Atom) : Bool :=
  a.element == Element.X ||
    decide (a.bondValence + a.numExplicitHs ≤ defaultValence a.element)

/-- RDKit bond orders. -/
inductive BondType where
  | single
  | double
  | triple
  | aromatic
deriving DecidableEq, Repr

/-- A bond between the atoms at the two given positions of the atom list. -/
structure Bond where
  bgn : Nat
  fin : Nat
  btype : BondType
deriving DecidableEq, Repr

/-- An RDKit molecule: heavy atoms plus bonds between them. -/
structure Mol where
  atoms : List Atom
  bonds : List Bond
deriving DecidableEq, Repr

/-- Reindexing of a bond when a molecule is appended after `k` atoms. -/
def Bond.shift (k : Nat) (b : Bond) : Bond :=
  ⟨b.bgn + k, b.fin + k, b.btype⟩

/-- `Chem.CombineMols`: disjoint union, second molecule's atoms appended. -/
def Mol.combine (m1 m2 : Mol) : Mol :=
  ⟨m1.atoms ++ m2.atoms, m1.bonds ++ m2.bonds.map (Bond.shift m1.atoms.length)⟩

/-- The fold `combo, *mols = mols; for mol in mols: combo = CombineMols(combo, mol)`
performed at the start of `Base.merge`. -/
def combineAll : List Mol → Mol
  | [] => ⟨[], []⟩
  | m :: rest => rest.foldl Mol.combine m

/-- `Chem.SanitizeMol` succeeds exactly when every atom passes the valence check. -/
def Mol.sanitizeOk (m : Mol) : Bool :=
  m.atoms.all Atom.valenceOk

/-- Python exceptions raised along the code paths under study.
`mergeArity` and `mergeLabelCount` are the two `MergeError` raises of
`Base.merge`; `sanitizeFail` is RDKit's sanitization exception;
`indexErr` is Python's IndexError, `valueErr` a ValueError from tuple
unpacking, `typeErr` a TypeError. -/
inductive Err where
  | mergeArity
  | mergeLabelCount
  | sanitizeFail
  | indexErr
  | valueErr
  | typeErr
deriving DecidableEq, Repr

/-- Eligibility test of `Base.merge`'s comprehension:
`atom.GetAtomMapNum() and atom.GetAtomMapNum() not in ignored_map_nums`. -/
def eligibleAtom (ignored : List Nat) (a : Atom) : Bool :=
  a.mapNum != 0 && !(ignored.contains a.mapNum)

/-- Positions of the eligible atoms, in atom-iteration order (worker of `eligIdxs`). -/
def eligIdxsAux (ignored : List Nat) : Nat → List Atom → List Nat
  | _, [] => []
  | i, a :: rest =>
    if eligibleAtom ignored a then i :: eligIdxsAux ignored (i + 1) rest
    else eligIdxsAux ignored (i + 1) rest

/-- Positions of the atoms selected by `Base.merge`'s comprehension. -/
def eligIdxs (ignored : List Nat) (m : Mol) : List Nat :=
  eligIdxsAux ignored 0 m.atoms

/-- `Base.update_hydrogen_counts` (utils.py lines 556-576): optionally clear
the atom map number; heteroatoms N/O/S drop all explicit hydrogens; carbons
with a non-zero explicit count get explicit count `GetTotalNumHs() - 1`. -/
def updateHydrogenCounts (clearMapNums : Bool) (a0 : Atom) : Atom :=
  let a := if clearMapNums then { a0 with mapNum := 0 } else a0
  if a.element = Element.N ∨ a.element = Element.O ∨ a.element = Element.S then
    { a with numExplicitHs := 0 }
  else if a.element = Element.C ∧ a.numExplicitHs ≠ 0 then
    { a with numExplicitHs := a.totalNumHs - 1 }
  else
    a

/-- Map with access to the position, starting at index `i`. -/
def mapIdxFrom (f : Nat → α → α) : Nat → List α → List α
  | _, [] => []
  | i, a :: rest => f i a :: mapIdxFrom f (i + 1) rest

/-- Combined per-atom effect on a merge atom: `update_hydrogen_counts`
followed by the one unit of bond valence gained from `AddBond`. -/
def mergeAtomUpdate (clearMapNums : Bool) (a : Atom) : Atom :=
  let a2 := updateHydrogenCounts clearMapNums a
  { a2 with bondValence := a2.bondValence + 1 }

/-- Atom-list effect of `update_hydrogen_counts` on the two selected atoms
followed by `AddBond(atom1, atom2, SINGLE)`. -/
def addBondAtoms (i1 i2 : Nat) (clearMapNums : Bool) (atoms : List Atom) : List Atom :=
  mapIdxFrom
    (fun j a => if j = i1 ∨ j = i2 then mergeAtomUpdate clearMapNums a else a)
    0 atoms

/-- Set the chiral tag of the atom at position `center`. -/
def setChiralAt (center : Nat) (tag : ChiralTag) (atoms : List Atom) : List Atom :=
  mapIdxFrom (fun j a => if j = center then { a with chiralTag := tag } else a) 0 atoms

/-- `Base.merge` (utils.py lines 507-553).

Control flow of the source, in order: the arity check (`MergeError` unless
1 or 2 molecules); `CombineMols`; `SanitizeMol`; the comprehension selecting
the atoms with a non-zero map number not in `ignored_map_nums` while applying
`update_hydrogen_counts` to them (a `ValueError` from unpacking anything but
exactly two atoms is re-raised as `MergeError`); `AddBond`; `RemoveHs`
(identity here, hydrogens being implicit); `SanitizeMol`; the stereo-center
choice `atom1 if atom1 sp3 and totalHs != 2 else atom2` with the chiral tag
set when `stereo` is 'CW' or 'CCW'; and the canonical re-parse (identity). -/
def merge (mols : List Mol) (ignored : List Nat) (stereo : Option Stereo)
    (clearMapNums : Bool) : Except Err Mol :=
  if mols.length < 1 ∨ mols.length > 2 then .error .mergeArity
  else
    let combo := combineAll mols
    if combo.sanitizeOk then
      match eligIdxs ignored combo with
      | [i1, i2] =>
        let atoms2 := addBondAtoms i1 i2 clearMapNums combo.atoms
        let m2 : Mol := ⟨atoms2, combo.bonds ++ [⟨i1, i2, BondType.single⟩]⟩
        if m2.sanitizeOk then
          let a1 := atoms2[i1]!
          let center := if a1.hybridization = Hyb.SP3 ∧ a1.totalNumHs ≠ 2 then i1 else i2
          match stereo with
          | some st => .ok ⟨setChiralAt center st.tag atoms2, m2.bonds⟩
          | none => .ok m2
        else .error .sanitizeFail
      | _ => .error .mergeLabelCount
    else .error .sanitizeFail

theorem length_mapIdxFrom (f : Nat → α → α) :
    ∀ (i : Nat) (l : List α), (mapIdxFrom f i l).length = l.length := by
  intro i l
  induction l generalizing i with
  | nil => rfl
  | cons a rest ih => simp [mapIdxFrom, ih]

theorem getElem?_mapIdxFrom (f : Nat → α → α) :
    ∀ (i : Nat) (l : List α) (j : Nat),
      (mapIdxFrom f i l)[j]? = (l[j]?).map (f (i + j)) := by
  intro i l
  induction l generalizing i with
  | nil => intro j; simp [mapIdxFrom]
  | cons a rest ih =>
    intro j
    cases j with
    | zero => simp [mapIdxFrom]
    | succ j =>
      simp only [mapIdxFrom, List.getElem?_cons_succ, ih (i + 1) j]
      rw [Nat.add_assoc, Nat.add_comm 1 j]

theorem mem_eligIdxsAux (ig : List Nat) :
    ∀ (l : List Atom) (k j : Nat),
      j ∈ eligIdxsAux ig k l ↔
        ∃ d a, l[d]? = some a ∧ eligibleAtom ig a = true ∧ j = k + d := by
  intro l
  induction l with
  | nil => intro k j; simp [eligIdxsAux]
  | cons a rest ih =>
    intro k j
    by_cases helig : eligibleAtom ig a
    · simp only [eligIdxsAux, if_pos helig, List.mem_cons, ih (k + 1) j]
      constructor
      · rintro (rfl | ⟨d, b, hget, hb, rfl⟩)
        · exact ⟨0, a, by simp, helig, by omega⟩
        · exact ⟨d + 1, b, by simpa using hget, hb, by omega⟩
      · rintro ⟨d, b, hget, hb, rfl⟩
        cases d with
        | zero => left; omega
        | succ d =>
          right
          exact ⟨d, b, by simpa using hget, hb, by omega⟩
    · simp only [eligIdxsAux, if_neg helig, ih (k + 1) j]
      constructor
      · rintro ⟨d, b, hget, hb, rfl⟩
        exact ⟨d + 1, b, by simpa using hget, hb, by omega⟩
      · rintro ⟨d, b, hget, hb, rfl⟩
        cases d with
        | zero =>
          simp only [List.getElem?_cons_zero, Option.some.injEq] at hget
          subst hget
          exact absurd hb helig
        | succ d =>
          exact ⟨d, b, by simpa using hget, hb, by omega⟩

theorem mem_eligIdxs (ig : List Nat) (m : Mol) (j : Nat) :
    j ∈ eligIdxs ig m ↔
      ∃ a, m.atoms[j]? = some a ∧ eligibleAtom ig a = true := by
  unfold eligIdxs
  rw [mem_eligIdxsAux]
  constructor
  · rintro ⟨d, a, hget, ha, rfl⟩
    exact ⟨a, by simpa using hget, ha⟩
  · rintro ⟨a, hget, ha⟩
    exact ⟨j, a, hget, ha, by omega⟩

theorem length_eligIdxsAux (ig : List Nat) :
    ∀ (l : List Atom) (k : Nat),
      (eligIdxsAux ig k l).length = (l.filter (eligibleAtom ig)).length := by
  intro l
  induction l with
  | nil => intro k; rfl
  | cons a rest ih =>
    intro k
    by_cases helig : eligibleAtom ig a
    · simp [eligIdxsAux, if_pos helig, List.filter_cons, helig, ih]
    · simp [eligIdxsAux, if_neg helig, List.filter_cons, helig, ih]

theorem ge_of_mem_eligIdxsAux (ig : List Nat) :
    ∀ (l : List Atom) (k j : Nat), j ∈ eligIdxsAux ig k l → k ≤ j := by
  intro l k j h
  rw [mem_eligIdxsAux] at h
  obtain ⟨d, a, -, -, rfl⟩ := h
  omega

theorem head_lt_of_eligIdxsAux (ig : List Nat) :
    ∀ (l : List Atom) (k i : Nat) (rest : List Nat),
      eligIdxsAux ig k l = i :: rest → ∀ j ∈ rest, i < j := by
  intro l
  induction l with
  | nil => intro k i rest h; cases h
  | cons a tl ih =>
    intro k i rest h j hj
    by_cases helig : eligibleAtom ig a
    · simp only [eligIdxsAux, if_pos helig, List.cons.injEq] at h
      obtain ⟨hk, hrest⟩ := h
      subst hrest
      have := ge_of_mem_eligIdxsAux ig tl (k + 1) j hj
      omega
    · simp only [eligIdxsAux, if_neg helig] at h
      exact ih (k + 1) i rest h j hj

/-- The two positions selected by a successful `Base.merge` are distinct
(the comprehension enumerates atoms in increasing position order). -/
theorem eligIdxs_pair_lt (ig : List Nat) (m : Mol) (i1 i2 : Nat)
    (h : eligIdxs ig m = [i1, i2]) : i1 < i2 := by
  exact head_lt_of_eligIdxsAux ig m.atoms 0 i1 [i2] h i2 (by simp)

theorem combineAll_sanitizeOk (mols : List Mol)
    (hlen : mols.length = 1 ∨ mols.length = 2)
    (h : ∀ m ∈ mols, m.sanitizeOk = true) :
    (combineAll mols).sanitizeOk = true := by
  match mols, hlen with
  | [m], _ =>
    simpa [combineAll] using h m (by simp)
  | [m1, m2], _ =>
    have h1 := h m1 (by simp)
    have h2 := h m2 (by simp)
    simp only [Mol.sanitizeOk, List.all_eq_true] at h1 h2 ⊢
    intro a ha
    simp only [combineAll, List.foldl, Mol.combine, List.mem_append] at ha
    rcases ha with ha | ha
    · exact h1 a ha
    · exact h2 a ha

/-- C1: `Base.merge` raises `MergeError` ('Can only merge 1 or 2 molecules at
a time') whenever it is given zero or at least three molecules, before any
other processing; and when given one or two (sanitizable) molecules whose
union does not contain exactly two atoms with a non-zero map number outside
`ignored_map_nums`, it raises `MergeError` ('There must be exactly 2 map
numbers across all molecules'). -/
theorem merge_error_conditions (mols : List Mol) (ignored : List Nat)
    (stereo : Option Stereo) (clearMapNums : Bool) :
    (mols.length = 0 ∨ 3 ≤ mols.length →
      merge mols ignored stereo clearMapNums = .error .mergeArity) ∧
    ((mols.length = 1 ∨ mols.length = 2) →
      (∀ m ∈ mols, m.sanitizeOk = true) →
      ((combineAll mols).atoms.filter (eligibleAtom ignored)).length ≠ 2 →
      merge mols ignored stereo clearMapNums = .error .mergeLabelCount) := by
  constructor
  · intro h
    have hc : mols.length < 1 ∨ mols.length > 2 := by omega
    unfold merge
    rw [if_pos hc]
  · intro hlen hsan hcount
    have harity : ¬(mols.length < 1 ∨ mols.length > 2) := by omega
    have hcombo := combineAll_sanitizeOk mols hlen hsan
    have helig : (eligIdxs ignored (combineAll mols)).length ≠ 2 := by
      rw [show eligIdxs ignored (combineAll mols)
            = eligIdxsAux ignored 0 (combineAll mols).atoms from rfl,
          length_eligIdxsAux]
      exact hcount
    have hne : ¬mols = [] := by rintro rfl; simp at hlen
    rcases hm : eligIdxs ignored (combineAll mols) with - | ⟨a, - | ⟨b, - | ⟨c, rest⟩⟩⟩
    · simp [merge, harity, hcombo, hm, hne]
      omega
    · simp [merge, harity, hcombo, hm, hne]
      omega
    · exact absurd (by rw [hm]; rfl) helig
    · simp [merge, harity, hcombo, hm, hne]
      omega

/-- Atom list of the molecule returned by a successful `Base.merge`. -/
def mergeResultAtoms (i1 i2 : Nat) (clearMapNums : Bool) (stereo : Option Stereo)
    (atoms : List Atom) : List Atom :=
  let atoms2 := addBondAtoms i1 i2 clearMapNums atoms
  match stereo with
  | none => atoms2
  | some st =>
    let a1 := atoms2[i1]!
    setChiralAt (if a1.hybridization = Hyb.SP3 ∧ a1.totalNumHs ≠ 2 then i1 else i2)
      st.tag atoms2

/-- Structure of a successful `Base.merge`: it selected exactly two atom
positions, both sanitizations passed, and the result's atoms are those of
the union with the two merge atoms rebalanced, bonded, and (with `stereo`)
chirality-tagged. -/
theorem merge_ok_struct (mols : List Mol) (ignored : List Nat)
    (stereo : Option Stereo) (clearMapNums : Bool) (res : Mol)
    (hmerge : merge mols ignored stereo clearMapNums = .ok res) :
    ∃ i1 i2,
      eligIdxs ignored (combineAll mols) = [i1, i2] ∧
      (combineAll mols).sanitizeOk = true ∧
      Mol.sanitizeOk
        ⟨addBondAtoms i1 i2 clearMapNums (combineAll mols).atoms,
          (combineAll mols).bonds ++ [⟨i1, i2, BondType.single⟩]⟩ = true ∧
      res.atoms = mergeResultAtoms i1 i2 clearMapNums stereo (combineAll mols).atoms := by
  simp only [merge] at hmerge
  split at hmerge
  · cases hmerge
  · split at hmerge
    · rename_i hsan1
      split at hmerge
      · rename_i i1 i2 helig
        split at hmerge
        · rename_i hsan2
          refine ⟨i1, i2, helig, hsan1, hsan2, ?_⟩
          match stereo, hmerge with
          | none, hmerge =>
            cases hmerge
            rfl
          | some st, hmerge =>
            cases hmerge
            rfl
        · cases hmerge
      · cases hmerge
    · cases hmerge

/-- Arithmetic of one merge atom: under the pre- and post-merge valence
checks, a non-wildcard merge atom loses exactly one total hydrogen;
heteroatoms end with zero explicit hydrogens; a carbon with a non-zero
explicit count ends with explicit count equal to its old total minus one. -/
theorem mergeAtomUpdate_hydrogens (clearMapNums : Bool) (a : Atom)
    (hX : a.element ≠ Element.X)
    (hpre : a.valenceOk = true)
    (hpost : (mergeAtomUpdate clearMapNums a).valenceOk = true) :
    (mergeAtomUpdate clearMapNums a).totalNumHs + 1 = a.totalNumHs ∧
    ((a.element = Element.N ∨ a.element = Element.O ∨ a.element = Element.S) →
      (mergeAtomUpdate clearMapNums a).numExplicitHs = 0) ∧
    (a.element = Element.C → a.numExplicitHs ≠ 0 →
      (mergeAtomUpdate clearMapNums a).numExplicitHs = a.totalNumHs - 1) := by
  obtain ⟨el, ar, mn, ne, bv, hy, ct⟩ := a
  cases el <;>
    simp_all only [mergeAtomUpdate, updateHydrogenCounts, Atom.valenceOk, Atom.totalNumHs,
      Atom.implicitHs, defaultValence, ne_eq, not_false_iff] <;>
    cases clearMapNums <;>
    by_cases hne : ne = 0 <;>
    simp_all [Atom.valenceOk, Atom.totalNumHs, Atom.implicitHs, defaultValence] <;>
    omega

/-- With `clear_map_nums=True`, a merge atom's map number is reset to zero. -/
theorem mergeAtomUpdate_mapNum_clear (a : Atom) : (mergeAtomUpdate true a).mapNum = 0 := by
  by_cases h1 : a.element = Element.N ∨ a.element = Element.O ∨ a.element = Element.S <;>
    by_cases h2 : a.element = Element.C ∧ a.numExplicitHs ≠ 0 <;>
      simp [mergeAtomUpdate, updateHydrogenCounts, h1, h2]

/-- The per-position view of the atoms of a merge result. -/
theorem addBondAtoms_getElem? (i1 i2 : Nat) (clearMapNums : Bool)
    (atoms : List Atom) (j : Nat) :
    (addBondAtoms i1 i2 clearMapNums atoms)[j]? =
      (atoms[j]?).map
        (fun a => if j = i1 ∨ j = i2 then mergeAtomUpdate clearMapNums a else a) := by
  unfold addBondAtoms
  rw [getElem?_mapIdxFrom]
  simp

/-- C2: in a successful two-molecule `Base.merge` (no stereo argument,
`clear_map_nums` left at its default `True`), each of the two selected merge
atoms — when it is a C/N/O/S atom — ends with a total hydrogen count exactly
one less than before the merge; N/O/S merge atoms end with zero explicit
hydrogens, while a carbon merge atom with a non-zero explicit count ends
with explicit count `GetTotalNumHs() - 1`; and no atom of the result still
carries either merge atom's map number. -/
theorem merge_hydrogen_rebalancing (m1 m2 : Mol) (ignored : List Nat)
    (res : Mol) (i1 i2 : Nat) (a1 a2 : Atom)
    (hmerge : merge [m1, m2] ignored none true = .ok res)
    (helig : eligIdxs ignored (combineAll [m1, m2]) = [i1, i2])
    (ha1 : (combineAll [m1, m2]).atoms[i1]? = some a1)
    (ha2 : (combineAll [m1, m2]).atoms[i2]? = some a2)
    (hX1 : a1.element ≠ Element.X) (hX2 : a2.element ≠ Element.X) :
    (res.atoms[i1]? = some (mergeAtomUpdate true a1) ∧
      (mergeAtomUpdate true a1).totalNumHs + 1 = a1.totalNumHs ∧
      ((a1.element = Element.N ∨ a1.element = Element.O ∨ a1.element = Element.S) →
        (mergeAtomUpdate true a1).numExplicitHs = 0) ∧
      (a1.element = Element.C → a1.numExplicitHs ≠ 0 →
        (mergeAtomUpdate true a1).numExplicitHs = a1.totalNumHs - 1)) ∧
    (res.atoms[i2]? = some (mergeAtomUpdate true a2) ∧
      (mergeAtomUpdate true a2).totalNumHs + 1 = a2.totalNumHs ∧
      ((a2.element = Element.N ∨ a2.element = Element.O ∨ a2.element = Element.S) →
        (mergeAtomUpdate true a2).numExplicitHs = 0) ∧
      (a2.element = Element.C → a2.numExplicitHs ≠ 0 →
        (mergeAtomUpdate true a2).numExplicitHs = a2.totalNumHs - 1)) ∧
    (∀ a ∈ res.atoms, a.mapNum ≠ a1.mapNum ∧ a.mapNum ≠ a2.mapNum) := by
  obtain ⟨j1, j2, helig2, hsan1, hsan2, hatoms⟩ :=
    merge_ok_struct [m1, m2] ignored none true res hmerge
  rw [helig] at helig2
  obtain ⟨h1, h2⟩ : i1 = j1 ∧ i2 = j2 := by simpa using helig2
  subst h1
  subst h2
  have hres : res.atoms = addBondAtoms i1 i2 true (combineAll [m1, m2]).atoms := hatoms
  -- eligibility of the two selected atoms
  have helig1' : eligibleAtom ignored a1 = true := by
    have := (mem_eligIdxs ignored (combineAll [m1, m2]) i1).mp (by rw [helig]; simp)
    obtain ⟨a, ha, he⟩ := this
    rw [ha1] at ha
    injection ha with ha
    rwa [ha]
  have helig2' : eligibleAtom ignored a2 = true := by
    have := (mem_eligIdxs ignored (combineAll [m1, m2]) i2).mp (by rw [helig]; simp)
    obtain ⟨a, ha, he⟩ := this
    rw [ha2] at ha
    injection ha with ha
    rwa [ha]
  -- the two updated atoms sit at positions i1 and i2 of the result
  have hget1 : res.atoms[i1]? = some (mergeAtomUpdate true a1) := by
    rw [hres, addBondAtoms_getElem?, ha1]
    simp
  have hget2 : res.atoms[i2]? = some (mergeAtomUpdate true a2) := by
    rw [hres, addBondAtoms_getElem?, ha2]
    simp
  -- valence admissibility before and after
  have hall1 : ∀ b ∈ (combineAll [m1, m2]).atoms, b.valenceOk = true := by
    simpa [Mol.sanitizeOk, List.all_eq_true] using hsan1
  have hall2 : ∀ b ∈ addBondAtoms i1 i2 true (combineAll [m1, m2]).atoms, b.valenceOk = true := by
    simpa [Mol.sanitizeOk, List.all_eq_true] using hsan2
  have hpre1 : a1.valenceOk = true := hall1 a1 (List.getElem?_mem ha1)
  have hpre2 : a2.valenceOk = true := hall1 a2 (List.getElem?_mem ha2)
  have hpost1 : (mergeAtomUpdate true a1).valenceOk = true := by
    refine hall2 _ (List.getElem?_mem (n := i1) ?_)
    rw [addBondAtoms_getElem?, ha1]
    simp
  have hpost2 : (mergeAtomUpdate true a2).valenceOk = true := by
    refine hall2 _ (List.getElem?_mem (n := i2) ?_)
    rw [addBondAtoms_getElem?, ha2]
    simp
  have harith1 := mergeAtomUpdate_hydrogens true a1 hX1 hpre1 hpost1
  have harith2 := mergeAtomUpdate_hydrogens true a2 hX2 hpre2 hpost2
  refine ⟨⟨hget1, harith1.1, harith1.2.1, harith1.2.2⟩,
          ⟨hget2, harith2.1, harith2.2.1, harith2.2.2⟩, ?_⟩
  -- no residual merge-point labels
  have hlab1 : a1.mapNum ≠ 0 ∧ ignored.contains a1.mapNum = false := by
    simpa [eligibleAtom] using helig1'
  have hlab2 : a2.mapNum ≠ 0 ∧ ignored.contains a2.mapNum = false := by
    simpa [eligibleAtom] using helig2'
  intro a hmem
  obtain ⟨j, hj⟩ : ∃ j : Nat, res.atoms[j]? = some a := List.getElem?_of_mem hmem
  rw [hres, addBondAtoms_getElem?] at hj
  match hc : (combineAll [m1, m2]).atoms[j]? with
  | none => rw [hc] at hj; cases hj
  | some aj =>
    rw [hc] at hj
    simp only [Option.map_some'] at hj
    by_cases hcase : j = i1 ∨ j = i2
    · rw [if_pos hcase] at hj
      injection hj with hj
      have : a.mapNum = 0 := by
        rw [← hj]
        exact mergeAtomUpdate_mapNum_clear aj
      rw [this]
      exact ⟨fun h => hlab1.1 h.symm, fun h => hlab2.1 h.symm⟩
    · rw [if_neg hcase] at hj
      injection hj with hj
      have hnotelig : ¬ eligibleAtom ignored aj = true := by
        intro helig'
        have : j ∈ eligIdxs ignored (combineAll [m1, m2]) :=
          (mem_eligIdxs ignored (combineAll [m1, m2]) j).mpr ⟨aj, hc, helig'⟩
        rw [helig] at this
        simp at this
        exact hcase this
      have : aj.mapNum = 0 ∨ ignored.contains aj.mapNum = true := by
        by_cases h0 : aj.mapNum = 0
        · exact Or.inl h0
        · right
          cases hx : ignored.contains aj.mapNum
          · exact absurd (by unfold eligibleAtom; rw [hx]; simp [h0]) hnotelig
          · rfl
      rw [← hj]
      rcases this with h0 | hin
      · rw [h0]
        exact ⟨fun h => hlab1.1 h.symm, fun h => hlab2.1 h.symm⟩
      · constructor
        · intro heq
          rw [heq] at hin
          rw [hin] at hlab1
          exact absurd hlab1.2 (by simp)
        · intro heq
          rw [heq] at hin
          rw [hin] at hlab2
          exact absurd hlab2.2 (by simp)

/-- A carbon atom carrying merge-point label 1. -/
def c2a1 : Atom := ⟨Element.C, false, 1, 0, 0, Hyb.othr, ChiralTag.unspecified⟩

/-- A nitrogen atom with one explicit hydrogen carrying merge-point label 2. -/
def c2a2 : Atom := ⟨Element.N, false, 2, 1, 0, Hyb.othr, ChiralTag.unspecified⟩

/-- Single-atom molecule around `c2a1`. -/
def c2m1 : Mol := ⟨[c2a1], []⟩

/-- Single-atom molecule around `c2a2`. -/
def c2m2 : Mol := ⟨[c2a2], []⟩

/-- The molecule `Base.merge` produces from `c2m1` and `c2m2`. -/
def c2res : Mol :=
  ⟨[⟨Element.C, false, 0, 0, 1, Hyb.othr, ChiralTag.unspecified⟩,
    ⟨Element.N, false, 0, 0, 1, Hyb.othr, ChiralTag.unspecified⟩],
   [⟨0, 1, BondType.single⟩]⟩

/-- Witness for `merge_hydrogen_rebalancing` on the concrete merge of a
labeled methane-like carbon with a labeled amine-like nitrogen. -/
theorem merge_hydrogen_rebalancing_witness :
    merge [c2m1, c2m2] [] none true = .ok c2res ∧
    ((c2res.atoms[0]? = some (mergeAtomUpdate true c2a1) ∧
      (mergeAtomUpdate true c2a1).totalNumHs + 1 = c2a1.totalNumHs ∧
      ((c2a1.element = Element.N ∨ c2a1.element = Element.O ∨ c2a1.element = Element.S) →
        (mergeAtomUpdate true c2a1).numExplicitHs = 0) ∧
      (c2a1.element = Element.C → c2a1.numExplicitHs ≠ 0 →
        (mergeAtomUpdate true c2a1).numExplicitHs = c2a1.totalNumHs - 1)) ∧
    (c2res.atoms[1]? = some (mergeAtomUpdate true c2a2) ∧
      (mergeAtomUpdate true c2a2).totalNumHs + 1 = c2a2.totalNumHs ∧
      ((c2a2.element = Element.N ∨ c2a2.element = Element.O ∨ c2a2.element = Element.S) →
        (mergeAtomUpdate true c2a2).numExplicitHs = 0) ∧
      (c2a2.element = Element.C → c2a2.numExplicitHs ≠ 0 →
        (mergeAtomUpdate true c2a2).numExplicitHs = c2a2.totalNumHs - 1)) ∧
    (∀ a ∈ c2res.atoms, a.mapNum ≠ c2a1.mapNum ∧ a.mapNum ≠ c2a2.mapNum)) := by
  refine ⟨by rfl, ?_⟩
  exact merge_hydrogen_rebalancing c2m1 c2m2 [] c2res 0 1 c2a1 c2a2
    (by rfl) (by decide) (by decide) (by decide) (by decide) (by decide)

/-- `mergeAtomUpdate` never touches the chiral tag. -/
theorem mergeAtomUpdate_chiralTag (clearMapNums : Bool) (a : Atom) :
    (mergeAtomUpdate clearMapNums a).chiralTag = a.chiralTag := by
  by_cases h1 : a.element = Element.N ∨ a.element = Element.O ∨ a.element = Element.S <;>
    by_cases h2 : a.element = Element.C ∧ a.numExplicitHs ≠ 0 <;>
      cases clearMapNums <;>
        simp [mergeAtomUpdate, updateHydrogenCounts, h1, h2]

/-- The per-position view of `setChiralAt`. -/
theorem setChiralAt_getElem? (c : Nat) (tag : ChiralTag) (atoms : List Atom) (j : Nat) :
    (setChiralAt c tag atoms)[j]? =
      (atoms[j]?).map (fun a => if j = c then { a with chiralTag := tag } else a) := by
  unfold setChiralAt
  rw [getElem?_mapIdxFrom]
  simp

/-- C9 (amended): in a successful `Base.merge` with a `stereo` argument, the
chiral tag is assigned to atom1 (the first selected merge atom) when atom1 is
sp3-hybridized with a total hydrogen count different from 2, and otherwise to
atom2 unconditionally — even when atom2 itself is not sp3 or has exactly two
hydrogens; the atom of the pair that is not chosen keeps its pre-merge chiral
tag. -/
theorem merge_stereo_assignment (mols : List Mol) (ignored : List Nat) (st : Stereo)
    (clearMapNums : Bool) (res : Mol) (i1 i2 : Nat)
    (hmerge : merge mols ignored (some st) clearMapNums = .ok res)
    (helig : eligIdxs ignored (combineAll mols) = [i1, i2]) :
    ∃ a1,
      (addBondAtoms i1 i2 clearMapNums (combineAll mols).atoms)[i1]? = some a1 ∧
      (((a1.hybridization = Hyb.SP3 ∧ a1.totalNumHs ≠ 2) →
        res.atoms[i1]? = some { a1 with chiralTag := st.tag } ∧
        (∃ b0 b, (combineAll mols).atoms[i2]? = some b0 ∧
          res.atoms[i2]? = some b ∧ b.chiralTag = b0.chiralTag)) ∧
      (¬(a1.hybridization = Hyb.SP3 ∧ a1.totalNumHs ≠ 2) →
        (∃ b, (addBondAtoms i1 i2 clearMapNums (combineAll mols).atoms)[i2]? = some b ∧
          res.atoms[i2]? = some { b with chiralTag := st.tag }) ∧
        res.atoms[i1]? = some a1 ∧
        (∃ a0, (combineAll mols).atoms[i1]? = some a0 ∧ a1.chiralTag = a0.chiralTag))) := by
  obtain ⟨j1, j2, helig2, hsan1, hsan2, hatoms⟩ :=
    merge_ok_struct mols ignored (some st) clearMapNums res hmerge
  rw [helig] at helig2
  obtain ⟨h1, h2⟩ : i1 = j1 ∧ i2 = j2 := by simpa using helig2
  subst h1
  subst h2
  have hlt : i1 < i2 := eligIdxs_pair_lt ignored (combineAll mols) i1 i2 helig
  -- both positions exist in the union
  have hmem1 : i1 ∈ eligIdxs ignored (combineAll mols) := by rw [helig]; simp
  have hmem2 : i2 ∈ eligIdxs ignored (combineAll mols) := by rw [helig]; simp
  obtain ⟨a0, ha0, -⟩ := (mem_eligIdxs ignored (combineAll mols) i1).mp hmem1
  obtain ⟨b0, hb0, -⟩ := (mem_eligIdxs ignored (combineAll mols) i2).mp hmem2
  have hga1 : (addBondAtoms i1 i2 clearMapNums (combineAll mols).atoms)[i1]? =
      some (mergeAtomUpdate clearMapNums a0) := by
    rw [addBondAtoms_getElem?, ha0]
    simp
  have hgb1 : (addBondAtoms i1 i2 clearMapNums (combineAll mols).atoms)[i2]? =
      some (mergeAtomUpdate clearMapNums b0) := by
    rw [addBondAtoms_getElem?, hb0]
    simp
  have hbang : (addBondAtoms i1 i2 clearMapNums (combineAll mols).atoms)[i1]! =
      mergeAtomUpdate clearMapNums a0 := List.getElem!_of_getElem? hga1
  refine ⟨mergeAtomUpdate clearMapNums a0, hga1, ?_, ?_⟩
  · intro hP
    have hres : res.atoms =
        setChiralAt i1 st.tag (addBondAtoms i1 i2 clearMapNums (combineAll mols).atoms) := by
      rw [hatoms]
      simp only [mergeResultAtoms]
      rw [hbang, if_pos hP]
    constructor
    · rw [hres, setChiralAt_getElem?, hga1]
      simp
    · refine ⟨b0, mergeAtomUpdate clearMapNums b0, hb0, ?_, ?_⟩
      · rw [hres, setChiralAt_getElem?, hgb1]
        simp
        intro heq
        omega
      · exact mergeAtomUpdate_chiralTag clearMapNums b0
  · intro hP
    have hres : res.atoms =
        setChiralAt i2 st.tag (addBondAtoms i1 i2 clearMapNums (combineAll mols).atoms) := by
      rw [hatoms]
      simp only [mergeResultAtoms]
      rw [hbang, if_neg hP]
    refine ⟨⟨mergeAtomUpdate clearMapNums b0, hgb1, ?_⟩, ?_, a0, ha0,
      mergeAtomUpdate_chiralTag clearMapNums a0⟩
    · rw [hres, setChiralAt_getElem?, hgb1]
      simp
    · rw [hres, setChiralAt_getElem?, hga1]
      simp
      intro heq
      omega

/-- A non-sp3 carbon carrying merge-point label 1. -/
def c9a1 : Atom := ⟨Element.C, false, 1, 0, 1, Hyb.SP2, ChiralTag.unspecified⟩

/-- A non-sp3 carbon carrying merge-point label 2. -/
def c9a2 : Atom := ⟨Element.C, false, 2, 0, 1, Hyb.SP2, ChiralTag.unspecified⟩

/-- Single-atom molecule around `c9a1`. -/
def c9m1 : Mol := ⟨[c9a1], []⟩

/-- Single-atom molecule around `c9a2`. -/
def c9m2 : Mol := ⟨[c9a2], []⟩

/-- The molecule `Base.merge` produces from `c9m1` and `c9m2` with stereo 'CW'. -/
def c9res : Mol :=
  ⟨[⟨Element.C, false, 0, 0, 2, Hyb.SP2, ChiralTag.unspecified⟩,
    ⟨Element.C, false, 0, 0, 2, Hyb.SP2, ChiralTag.CW⟩],
   [⟨0, 1, BondType.single⟩]⟩

/-- C9 counterexample: merging two molecules at two non-sp3 (SP2) carbons
with `stereo='CW'` still assigns the tetrahedral CW tag — it lands on the
second merge atom even though neither merge atom is sp3-hybridized, so the
tag is not assigned to "whichever of the two atoms is sp3-hybridized". -/
theorem merge_stereo_counterexample :
    merge [c9m1, c9m2] [] (some Stereo.CW) true = .ok c9res ∧
    (c9res.atoms[0]!).hybridization ≠ Hyb.SP3 ∧
    (c9res.atoms[1]!).hybridization ≠ Hyb.SP3 ∧
    (c9res.atoms[1]!).chiralTag = ChiralTag.CW ∧
    (c9res.atoms[0]!).chiralTag = ChiralTag.unspecified := by
  refine ⟨by rfl, by decide, by decide, by decide, by decide⟩

/-- Witness for `merge_stereo_assignment` on the concrete `c9m1`/`c9m2`
merge (the not-sp3 branch fires and atom2 receives the tag). -/
theorem merge_stereo_assignment_witness :
    ∃ a1,
      (addBondAtoms 0 1 true (combineAll [c9m1, c9m2]).atoms)[0]? = some a1 ∧
      (((a1.hybridization = Hyb.SP3 ∧ a1.totalNumHs ≠ 2) →
        c9res.atoms[0]? = some { a1 with chiralTag := Stereo.CW.tag } ∧
        (∃ b0 b, (combineAll [c9m1, c9m2]).atoms[1]? = some b0 ∧
          c9res.atoms[1]? = some b ∧ b.chiralTag = b0.chiralTag)) ∧
      (¬(a1.hybridization = Hyb.SP3 ∧ a1.totalNumHs ≠ 2) →
        (∃ b, (addBondAtoms 0 1 true (combineAll [c9m1, c9m2]).atoms)[1]? = some b ∧
          c9res.atoms[1]? = some { b with chiralTag := Stereo.CW.tag }) ∧
        c9res.atoms[0]? = some a1 ∧
        (∃ a0, (combineAll [c9m1, c9m2]).atoms[0]? = some a0 ∧
          a1.chiralTag = a0.chiralTag))) :=
  merge_stereo_assignment [c9m1, c9m2] [] Stereo.CW true c9res 0 1 (by rfl) (by rfl)

/-- Witness for `merge_error_conditions`: with no molecules the arity error
fires, and with one single-atom unlabeled molecule the label-count error fires. -/
theorem merge_error_conditions_witness :
    merge [] [] none true = .error .mergeArity ∧
    merge [⟨[⟨Element.C, false, 0, 0, 0, Hyb.othr, ChiralTag.unspecified⟩], []⟩]
        [] none true = .error .mergeLabelCount := by
  refine ⟨(merge_error_conditions [] [] none true).1 (by simp), ?_⟩
  exact (merge_error_conditions _ [] none true).2 (by simp) (by decide) (by decide)

/-!
Reaction variants (`macrocycles/reactions.py`).

The atom-map-number constants live in `macrocycles/config.py`, which is not
part of the sources at hand; their values follow the legacy constant block
kept in `new_structure/config.py`.  Only their distinctness matters to any
statement below.
-/

/-- Modelled from the spec: `config.TEMP_WILDCARD_MAP_NUM`, the merge-point
label of the template fragment's wildcard (missing `macrocycles/config.py`). -/
def TEMP_WILDCARD_MAP_NUM : Nat := 1

/-- Modelled from the spec: `config.TEMP_EAS_MAP_NUM`, the merge-point label
of the template fragment's reacting methyl (missing `macrocycles/config.py`). -/
def TEMP_EAS_MAP_NUM : Nat := 2

/-- Modelled from the spec: `config.SC_WILDCARD_MAP_NUM`, the label given to
the side chain's attachment wildcard (missing `macrocycles/config.py`). -/
def SC_WILDCARD_MAP_NUM : Nat := 3

/-- Modelled from the spec: `config.SC_EAS_MAP_NUM`, the temporary label of
the trial reaction site (missing `macrocycles/config.py`). -/
def SC_EAS_MAP_NUM : Nat := 4

/-- Whether the atoms at positions `i` and `j` are bonded. -/
def Mol.adjacentB (m : Mol) (i j : Nat) : Bool :=
  m.bonds.any fun b => (b.bgn == i && b.fin == j) || (b.bgn == j && b.fin == i)

/-- `GetNeighbors` as a list of atom positions. -/
def Mol.neighborIdxs (m : Mol) (i : Nat) : List Nat :=
  (List.range m.atoms.length).filter (fun j => m.adjacentB i j)

/-- `Chem.FindAllPathsOfLengthN(mol, 3, useBonds=False, rootedAtAtom=root)`:
the atoms occurring on some simple three-atom path rooted at `root`
(the set that `PictetSpangler.is_valid` unions the paths into). -/
def pathAtomsLen3 (m : Mol) (root : Nat) : List Nat :=
  ((m.neighborIdxs root).filter (fun a => a ≠ root)).flatMap fun a =>
    ((m.neighborIdxs a).filter (fun b => b ≠ root && b ≠ a)).flatMap fun b =>
      [root, a, b]

/-- `template.GetSubstructMatch(Chem.MolFromSmarts('C(=O)'))` is non-empty:
some aliphatic carbon is double-bonded to an aliphatic oxygen. -/
def hasCarbonylMatch (m : Mol) : Bool :=
  m.bonds.any fun b =>
    b.btype == BondType.double &&
      ((matchPairCO m b.bgn b.fin) || (matchPairCO m b.fin b.bgn))
where
  matchPairCO (m : Mol) (i j : Nat) : Bool :=
    match m.atoms[i]?, m.atoms[j]? with
    | some ai, some aj =>
      ai.element == Element.C && !ai.isAromatic && aj.element == Element.O && !aj.isAromatic
    | _, _ => false

/-- The fixed allylic fragment `Chem.MolFromSmarts`
built from the pattern wildcard/C=C/methyl with labels
`TEMP_WILDCARD_MAP_NUM` and `TEMP_EAS_MAP_NUM`, substituted in by
`FriedelCafts.preprocess`, `TsujiTrost.preprocess` and
`PyrroloIndolene.preprocess`. -/
def allylicFragment : Mol :=
  ⟨[⟨Element.X, false, TEMP_WILDCARD_MAP_NUM, 0, 1, Hyb.othr, ChiralTag.unspecified⟩,
    ⟨Element.C, false, 0, 0, 3, Hyb.SP2, ChiralTag.unspecified⟩,
    ⟨Element.C, false, 0, 0, 3, Hyb.SP2, ChiralTag.unspecified⟩,
    ⟨Element.C, false, TEMP_EAS_MAP_NUM, 3, 1, Hyb.SP3, ChiralTag.unspecified⟩],
   [⟨0, 1, BondType.single⟩, ⟨1, 2, BondType.double⟩, ⟨2, 3, BondType.single⟩]⟩

/-- Instance state shared by the two template-independent surface variants
(`FriedelCafts` and `TsujiTrost`): the `reactants` tuple (the template slot
may hold Python `None`), the `reacting_atom` passed to the constructor, the
cached `valid` flag (initialized `False` by `Reaction.__init__`), plus an
invocation counter for `preprocess` (the claims count its executions). -/
structure SurfaceState where
  reactants : List (Option Mol)
  reactingAtom : Atom
  valid : Bool
  preprocessCount : Nat
deriving DecidableEq, Repr

/-- The state a freshly constructed `FriedelCafts`/`TsujiTrost` instance has:
`reactants = (side_chain, template)`, `valid = False`. -/
def SurfaceState.init (sideChain : Mol) (template : Option Mol) (reactingAtom : Atom) :
    SurfaceState :=
  ⟨[some sideChain, template], reactingAtom, false, 0⟩

/-- `FriedelCafts.preprocess` / `TsujiTrost.preprocess`: replace the reactant
tuple by `[side_chain, allylic fragment]`, discarding the supplied template. -/
def surfacePreprocess (s : SurfaceState) : SurfaceState :=
  { s with
    reactants := [s.reactants.headD none, some allylicFragment],
    preprocessCount := s.preprocessCount + 1 }

/-- `FriedelCafts.is_valid` (reactions.py lines 114-125): cached-flag
short-circuit; aromatic carbon with at least one hydrogen runs `preprocess`
and returns true — without ever setting the `valid` flag. -/
def FCisValid (s : SurfaceState) : Bool × SurfaceState :=
  if s.valid then (true, s)
  else if s.reactingAtom.element == Element.C
      && s.reactingAtom.totalNumHs != 0
      && s.reactingAtom.isAromatic then
    (true, surfacePreprocess s)
  else (false, s)

/-- `TsujiTrost.is_valid` (reactions.py lines 146-154): cached-flag
short-circuit; N/O/S atom with at least one hydrogen runs `preprocess` and
returns true — without ever setting the `valid` flag. -/
def TTisValid (s : SurfaceState) : Bool × SurfaceState :=
  if s.valid then (true, s)
  else if (s.reactingAtom.element == Element.N
        || s.reactingAtom.element == Element.O
        || s.reactingAtom.element == Element.S)
      && s.reactingAtom.totalNumHs > 0 then
    (true, surfacePreprocess s)
  else (false, s)

/-- `FriedelCafts.generate_product` / `TsujiTrost.generate_product`:
`Base.merge(*reactants, ignored_map_nums=[TEMP_WILDCARD, SC_WILDCARD],
clear_map_nums=False)`; a `None` still in the reactant tuple would make
`CombineMols` raise. -/
def surfaceGenerateProduct (s : SurfaceState) : Except Err Mol :=
  match s.reactants with
  | [some a, some b] =>
    merge [a, b] [TEMP_WILDCARD_MAP_NUM, SC_WILDCARD_MAP_NUM] none false
  | [some a] => merge [a] [TEMP_WILDCARD_MAP_NUM, SC_WILDCARD_MAP_NUM] none false
  | _ => .error .typeErr

/-- The value the first read of `Reaction.product` caches for a surface
variant: `None` when invalid, otherwise the generator's outcome. -/
def FCproductValue (s : SurfaceState) : Option (Except Err Mol) :=
  let r := FCisValid s
  if r.1 then some (surfaceGenerateProduct r.2) else none

/-- The value the first read of `Reaction.product` caches for `TsujiTrost`. -/
def TTproductValue (s : SurfaceState) : Option (Except Err Mol) :=
  let r := TTisValid s
  if r.1 then some (surfaceGenerateProduct r.2) else none

/-- Instance state of `PictetSpangler`: reactant list, reacting atom (an atom
object of the original side-chain molecule, with its index), the cached
`valid` flag and the `preprocess` invocation counter. -/
structure PSState where
  reactants : List Mol
  reactingAtom : Atom
  reactingAtomIdx : Nat
  valid : Bool
  preprocessCount : Nat
deriving DecidableEq, Repr

/-- `PictetSpangler.is_valid` (reactions.py lines 181-207).  The
`preprocess` payload (database-backed monomer construction and the
SMARTS-driven template rewrite of lines 209-273) is passed in as the
function `payload` acting on the reactant list; the claims under study
concern only when it runs, never what it builds.  Control flow of the
source in order: cached-flag short-circuit; aromatic-CH check (false on
failure); wildcard extraction `[atom for atom in ... if atomicNum==0][0]`
(IndexError when no wildcard exists); three-atom-path proximity check
(false on failure); template carbonyl match (false on failure); then
`preprocess`, `valid = True`, return true. -/
def PSisValid (payload : List Mol → List Mol) (s : PSState) :
    Except Err (Bool × PSState) :=
  if s.valid then .ok (true, s)
  else
    match s.reactants with
    | [sideChain, template] =>
      if !s.reactingAtom.isAromatic
          || s.reactingAtom.element != Element.C
          || s.reactingAtom.totalNumHs == 0 then
        .ok (false, s)
      else
        match sideChain.atoms.findIdx? (fun a => a.element == Element.X) with
        | none => .error .indexErr
        | some wIdx =>
          if !((pathAtomsLen3 sideChain s.reactingAtomIdx).contains wIdx
              && !((sideChain.neighborIdxs wIdx).contains wIdx)) then
            .ok (false, s)
          else if !hasCarbonylMatch template then
            .ok (false, s)
          else
            .ok (true,
              { s with
                reactants := payload s.reactants,
                valid := true,
                preprocessCount := s.preprocessCount + 1 })
    | _ => .error .valueErr

/-- Instance state of `PyrroloIndolene`.  `indoleMatch` records the result of
the external RDKit call `side_chain.GetSubstructMatch(indole SMARTS)` on the
side chain (whether the match is non-empty). -/
structure PIState where
  reactants : List Mol
  indoleMatch : Bool
  reactingAtom : Atom
  reactingAtomIdx : Nat
  valid : Bool
  preprocessCount : Nat
deriving DecidableEq, Repr

/-- `PyrroloIndolene.is_valid` (reactions.py lines 315-341).  As for
`PictetSpangler`, the `preprocess` payload (lines 343-379) is passed in as a
function on the reactant list.  Control flow of the source in order:
cached-flag short-circuit; indole substructure match (false when empty);
no-hydrogen carbon check on the reacting atom (false on failure); the
some-neighbor-with-exactly-one-hydrogen check (false on failure); wildcard
extraction `[...][0]` (IndexError when no wildcard exists); adjacency of the
reacting atom to the wildcard (false on failure); then `preprocess`,
`valid = True`, return true. -/
def PIisValid (payload : List Mol → List Mol) (s : PIState) :
    Except Err (Bool × PIState) :=
  if s.valid then .ok (true, s)
  else
    match s.reactants with
    | [sideChain, _template] =>
      if !s.indoleMatch then .ok (false, s)
      else if s.reactingAtom.totalNumHs != 0
          || s.reactingAtom.element != Element.C then
        .ok (false, s)
      else if !((sideChain.neighborIdxs s.reactingAtomIdx).map
            (fun j => (sideChain.atoms[j]!).totalNumHs)).contains 1 then
        .ok (false, s)
      else
        match sideChain.atoms.findIdx? (fun a => a.element == Element.X) with
        | none => .error .indexErr
        | some wIdx =>
          if !((sideChain.neighborIdxs wIdx).contains s.reactingAtomIdx) then
            .ok (false, s)
          else
            .ok (true,
              { s with
                reactants := payload s.reactants,
                valid := true,
                preprocessCount := s.preprocessCount + 1 })
    | _ => .error .valueErr

/-- A `PSisValid` call that returns true leaves the instance with its
cached `valid` flag set. -/
theorem PSisValid_true_valid (payload : List Mol → List Mol) (s s2 : PSState)
    (h : PSisValid payload s = .ok (true, s2)) : s2.valid = true := by
  unfold PSisValid at h
  split at h
  · rename_i hv
    simp only [Except.ok.injEq, Prod.mk.injEq, true_and] at h
    rw [← h]
    exact hv
  · split at h
    · split at h
      · simp at h
      · split at h
        · cases h
        · split at h
          · simp at h
          · split at h
            · simp at h
            · simp only [Except.ok.injEq, Prod.mk.injEq, true_and] at h
              rw [← h]
    · cases h

/-- A `PIisValid` call that returns true leaves the instance with its
cached `valid` flag set. -/
theorem PIisValid_true_valid (payload : List Mol → List Mol) (s s2 : PIState)
    (h : PIisValid payload s = .ok (true, s2)) : s2.valid = true := by
  unfold PIisValid at h
  split at h
  · rename_i hv
    simp only [Except.ok.injEq, Prod.mk.injEq, true_and] at h
    rw [← h]
    exact hv
  · split at h
    · split at h
      · simp at h
      · split at h
        · simp at h
        · split at h
          · simp at h
          · split at h
            · cases h
            · split at h
              · simp at h
              · simp only [Except.ok.injEq, Prod.mk.injEq, true_and] at h
                rw [← h]
    · cases h

/-- An aromatic CH carbon (benzene-like) tagged as the trial reaction site. -/
def c3atom : Atom := ⟨Element.C, true, SC_EAS_MAP_NUM, 0, 3, Hyb.SP2, ChiralTag.unspecified⟩

/-- A minimal side-chain molecule holding `c3atom`. -/
def c3sc : Mol := ⟨[c3atom], []⟩

/-- A freshly constructed `FriedelCafts` instance on `c3sc` (template-independent
call, so the template slot holds Python `None`). -/
def c3s0 : SurfaceState := SurfaceState.init c3sc none c3atom

/-- C3 counterexample: on a `FriedelCafts` instance whose reacting atom is an
aromatic CH carbon, `is_valid()` returns true and a second `is_valid()` call
executes `preprocess` again (the invocation counter reaches 2), because
`FriedelCafts.is_valid` never sets the cached `valid` flag. -/
theorem variant_preprocess_once_counterexample :
    (FCisValid c3s0).1 = true ∧
    ((FCisValid (FCisValid c3s0).2).2).preprocessCount = 2 := by
  constructor
  · rfl
  · rfl

/-- C3 (amended): `PictetSpangler` and `PyrroloIndolene` set the cached
`valid` flag on first success, so any later `is_valid()` call returns true
with the state (and hence the preprocess-invocation count) unchanged; but
`FriedelCafts` and `TsujiTrost` never set the flag, so with the flag still
`False` a second successful `is_valid()` call re-executes `preprocess`
(two calls perform two preprocess invocations), while still returning true. -/
theorem variant_preprocess_once_amended :
    (∀ (payload : List Mol → List Mol) (s s2 : PSState),
      PSisValid payload s = .ok (true, s2) →
      PSisValid payload s2 = .ok (true, s2)) ∧
    (∀ (payload : List Mol → List Mol) (s s2 : PIState),
      PIisValid payload s = .ok (true, s2) →
      PIisValid payload s2 = .ok (true, s2)) ∧
    (∀ s : SurfaceState, s.valid = false → (FCisValid s).1 = true →
      (FCisValid (FCisValid s).2).1 = true ∧
      ((FCisValid (FCisValid s).2).2).preprocessCount = s.preprocessCount + 2) ∧
    (∀ s : SurfaceState, s.valid = false → (TTisValid s).1 = true →
      (TTisValid (TTisValid s).2).1 = true ∧
      ((TTisValid (TTisValid s).2).2).preprocessCount = s.preprocessCount + 2) := by
  refine ⟨?_, ?_, ?_, ?_⟩
  · intro payload s s2 h
    have hv := PSisValid_true_valid payload s s2 h
    unfold PSisValid
    rw [if_pos hv]
  · intro payload s s2 h
    have hv := PIisValid_true_valid payload s s2 h
    unfold PIisValid
    rw [if_pos hv]
  · intro s hval htrue
    by_cases hcond : (s.reactingAtom.element == Element.C
        && s.reactingAtom.totalNumHs != 0
        && s.reactingAtom.isAromatic) = true
    · constructor <;> simp [FCisValid, hval, hcond, surfacePreprocess]
    · exfalso
      simp [FCisValid, hval, hcond] at htrue
  · intro s hval htrue
    by_cases hcond : ((s.reactingAtom.element == Element.N
        || s.reactingAtom.element == Element.O
        || s.reactingAtom.element == Element.S)
        && s.reactingAtom.totalNumHs > 0) = true
    · constructor <;> simp [TTisValid, hval, hcond, surfacePreprocess]
    · exfalso
      simp [TTisValid, hval, hcond] at htrue

/-- A three-atom side chain for `PictetSpangler`: aromatic CH reacting atom
at position 0, a linker carbon at 1, the attachment wildcard at 2 (two bonds
from the reacting atom, as the proximity check requires). -/
def c3psSC : Mol :=
  ⟨[⟨Element.C, true, SC_EAS_MAP_NUM, 0, 3, Hyb.SP2, ChiralTag.unspecified⟩,
    ⟨Element.C, false, 0, 0, 2, Hyb.SP3, ChiralTag.unspecified⟩,
    ⟨Element.X, false, SC_WILDCARD_MAP_NUM, 0, 1, Hyb.othr, ChiralTag.unspecified⟩],
   [⟨0, 1, BondType.single⟩, ⟨1, 2, BondType.single⟩]⟩

/-- A template with an unmasked aldehyde carbonyl (C double-bonded to O). -/
def c3psT : Mol :=
  ⟨[⟨Element.C, false, 0, 0, 3, Hyb.SP2, ChiralTag.unspecified⟩,
    ⟨Element.O, false, 0, 0, 2, Hyb.SP2, ChiralTag.unspecified⟩],
   [⟨0, 1, BondType.double⟩]⟩

/-- A freshly constructed `PictetSpangler` instance that passes validation. -/
def c3psS0 : PSState :=
  ⟨[c3psSC, c3psT],
   ⟨Element.C, true, SC_EAS_MAP_NUM, 0, 3, Hyb.SP2, ChiralTag.unspecified⟩, 0, false, 0⟩

/-- The state `c3psS0` reaches after its first successful `is_valid()` call
(with the identity preprocessing payload). -/
def c3psS2 : PSState :=
  ⟨[c3psSC, c3psT],
   ⟨Element.C, true, SC_EAS_MAP_NUM, 0, 3, Hyb.SP2, ChiralTag.unspecified⟩, 0, true, 1⟩

/-- A three-atom indole-like side chain for `PyrroloIndolene`: hydrogen-free
reacting carbon at position 0, an aromatic CH neighbor at 1, the attachment
wildcard at 2 adjacent to the reacting atom. -/
def c3piSC : Mol :=
  ⟨[⟨Element.C, true, SC_EAS_MAP_NUM, 0, 4, Hyb.SP2, ChiralTag.unspecified⟩,
    ⟨Element.C, true, 0, 0, 3, Hyb.SP2, ChiralTag.unspecified⟩,
    ⟨Element.X, false, SC_WILDCARD_MAP_NUM, 0, 1, Hyb.othr, ChiralTag.unspecified⟩],
   [⟨0, 1, BondType.aromatic⟩, ⟨0, 2, BondType.single⟩]⟩

/-- A freshly constructed `PyrroloIndolene` instance that passes validation
(its recorded indole substructure match is non-empty). -/
def c3piS0 : PIState :=
  ⟨[c3piSC, c3psT], true,
   ⟨Element.C, true, SC_EAS_MAP_NUM, 0, 4, Hyb.SP2, ChiralTag.unspecified⟩, 0, false, 0⟩

/-- The state `c3piS0` reaches after its first successful `is_valid()` call
(with the identity preprocessing payload). -/
def c3piS2 : PIState :=
  ⟨[c3piSC, c3psT], true,
   ⟨Element.C, true, SC_EAS_MAP_NUM, 0, 4, Hyb.SP2, ChiralTag.unspecified⟩, 0, true, 1⟩

/-- Witness for `variant_preprocess_once_amended` on concrete instances of
all four variants. -/
theorem variant_preprocess_once_amended_witness :
    (PSisValid id c3psS0 = .ok (true, c3psS2) ∧
      PSisValid id c3psS2 = .ok (true, c3psS2)) ∧
    (PIisValid id c3piS0 = .ok (true, c3piS2) ∧
      PIisValid id c3piS2 = .ok (true, c3piS2)) ∧
    (c3s0.valid = false ∧ (FCisValid c3s0).1 = true ∧
      (FCisValid (FCisValid c3s0).2).1 = true ∧
      ((FCisValid (FCisValid c3s0).2).2).preprocessCount = c3s0.preprocessCount + 2) ∧
    (c3s0.valid = false ∧
      (TTisValid { c3s0 with
        reactingAtom := ⟨Element.N, false, SC_EAS_MAP_NUM, 0, 1, Hyb.SP3,
          ChiralTag.unspecified⟩ }).1 = true ∧
      (TTisValid (TTisValid { c3s0 with
        reactingAtom := ⟨Element.N, false, SC_EAS_MAP_NUM, 0, 1, Hyb.SP3,
          ChiralTag.unspecified⟩ }).2).1 = true ∧
      ((TTisValid (TTisValid { c3s0 with
        reactingAtom := ⟨Element.N, false, SC_EAS_MAP_NUM, 0, 1, Hyb.SP3,
          ChiralTag.unspecified⟩ }).2).2).preprocessCount
        = ({ c3s0 with
            reactingAtom := ⟨Element.N, false, SC_EAS_MAP_NUM, 0, 1, Hyb.SP3,
              ChiralTag.unspecified⟩ } : SurfaceState).preprocessCount + 2) := by
  have hps : PSisValid id c3psS0 = .ok (true, c3psS2) := by rfl
  have hpi : PIisValid id c3piS0 = .ok (true, c3piS2) := by rfl
  refine ⟨⟨hps, variant_preprocess_once_amended.1 id c3psS0 c3psS2 hps⟩,
    ⟨hpi, variant_preprocess_once_amended.2.1 id c3piS0 c3piS2 hpi⟩,
    ⟨rfl, rfl, variant_preprocess_once_amended.2.2.1 c3s0 rfl rfl⟩,
    ⟨rfl, rfl, variant_preprocess_once_amended.2.2.2 _ rfl rfl⟩⟩

/-- A side chain whose atoms pass the aromatic-CH test but that contains no
wildcard atom at all. -/
def c8sc : Mol := ⟨[⟨Element.C, true, SC_EAS_MAP_NUM, 0, 3, Hyb.SP2, ChiralTag.unspecified⟩], []⟩

/-- A `PictetSpangler` instance on the wildcard-free side chain `c8sc`. -/
def c8ps : PSState :=
  ⟨[c8sc, c3psT],
   ⟨Element.C, true, SC_EAS_MAP_NUM, 0, 3, Hyb.SP2, ChiralTag.unspecified⟩, 0, false, 0⟩

/-- C8 counterexample: on a side chain with no wildcard attachment atom,
`PictetSpangler.is_valid` raises IndexError (from `[...][0]` on the empty
wildcard list) instead of returning false. -/
theorem variant_motif_absence_counterexample :
    PSisValid id c8ps = .error .indexErr := by rfl

/-- A non-empty `List.any` for a predicate gives a `findIdx?` hit. -/
theorem findIdx?_isSome_of_any (l : List Atom) (p : Atom → Bool)
    (h : l.any p = true) : (l.findIdx? p).isSome = true := by
  cases hf : l.findIdx? p with
  | some i => simp
  | none =>
    rw [List.findIdx?_eq_none_iff] at hf
    simp only [List.any_eq_true] at h
    obtain ⟨a, ha, hpa⟩ := h
    have := hf a ha
    simp [hpa] at this

/-- C8 (amended): absence of a reactive motif makes the validity predicates
return false rather than raise — except for the wildcard-extraction step,
which raises IndexError when the side chain has no wildcard atom and the
earlier checks passed.  Whenever the side chain does contain a wildcard
atom, `PictetSpangler.is_valid` and `PyrroloIndolene.is_valid` never raise;
in particular a missing template carbonyl makes `PictetSpangler.is_valid`
return false, and a missing indole makes `PyrroloIndolene.is_valid` return
false (the latter even without any wildcard, since the indole check comes
first). -/
theorem variant_motif_absence_amended :
    (∀ (payload : List Mol → List Mol) (s : PSState) (sc t : Mol),
      s.reactants = [sc, t] →
      sc.atoms.any (fun a => a.element == Element.X) = true →
      ∃ r, PSisValid payload s = .ok r) ∧
    (∀ (payload : List Mol → List Mol) (s : PIState) (sc t : Mol),
      s.reactants = [sc, t] →
      sc.atoms.any (fun a => a.element == Element.X) = true →
      ∃ r, PIisValid payload s = .ok r) ∧
    (∀ (payload : List Mol → List Mol) (s : PSState) (sc t : Mol),
      s.valid = false → s.reactants = [sc, t] →
      sc.atoms.any (fun a => a.element == Element.X) = true →
      hasCarbonylMatch t = false →
      PSisValid payload s = .ok (false, s)) ∧
    (∀ (payload : List Mol → List Mol) (s : PIState) (sc t : Mol),
      s.valid = false → s.reactants = [sc, t] →
      s.indoleMatch = false →
      PIisValid payload s = .ok (false, s)) := by
  refine ⟨?_, ?_, ?_, ?_⟩
  · intro payload s sc t hreact hany
    by_cases hv : s.valid = true
    · exact ⟨(true, s), by simp only [PSisValid]; rw [if_pos hv]⟩
    · have hsome := findIdx?_isSome_of_any sc.atoms _ hany
      cases hf : sc.atoms.findIdx? (fun a => a.element == Element.X) with
      | none => rw [hf] at hsome; simp at hsome
      | some wIdx =>
        by_cases hc1 : (!s.reactingAtom.isAromatic
            || s.reactingAtom.element != Element.C
            || s.reactingAtom.totalNumHs == 0) = true
        · exact ⟨(false, s), by
            simp only [PSisValid, hreact, hf]
            rw [if_neg hv, if_pos hc1]⟩
        · by_cases hc2 : (!((pathAtomsLen3 sc s.reactingAtomIdx).contains wIdx
              && !((sc.neighborIdxs wIdx).contains wIdx))) = true
          · exact ⟨(false, s), by
              simp only [PSisValid, hreact, hf]
              rw [if_neg hv, if_neg hc1, if_pos hc2]⟩
          · by_cases hc3 : (!hasCarbonylMatch t) = true
            · exact ⟨(false, s), by
                simp only [PSisValid, hreact, hf]
                rw [if_neg hv, if_neg hc1, if_neg hc2, if_pos hc3]⟩
            · exact ⟨(true, { s with reactants := payload [sc, t], valid := true, preprocessCount := s.preprocessCount + 1 }), by
                simp only [PSisValid, hreact, hf]
                rw [if_neg hv, if_neg hc1, if_neg hc2, if_neg hc3]⟩
  · intro payload s sc t hreact hany
    by_cases hv : s.valid = true
    · exact ⟨(true, s), by simp only [PIisValid]; rw [if_pos hv]⟩
    · have hsome := findIdx?_isSome_of_any sc.atoms _ hany
      cases hf : sc.atoms.findIdx? (fun a => a.element == Element.X) with
      | none => rw [hf] at hsome; simp at hsome
      | some wIdx =>
        by_cases hc0 : (!s.indoleMatch) = true
        · exact ⟨(false, s), by
            simp only [PIisValid, hreact, hf]
            rw [if_neg hv, if_pos hc0]⟩
        · by_cases hc1 : (s.reactingAtom.totalNumHs != 0
              || s.reactingAtom.element != Element.C) = true
          · exact ⟨(false, s), by
              simp only [PIisValid, hreact, hf]
              rw [if_neg hv, if_neg hc0, if_pos hc1]⟩
          · by_cases hc2 : (!((sc.neighborIdxs s.reactingAtomIdx).map
                (fun j => (sc.atoms[j]!).totalNumHs)).contains 1) = true
            · exact ⟨(false, s), by
                simp only [PIisValid, hreact, hf]
                rw [if_neg hv, if_neg hc0, if_neg hc1, if_pos hc2]⟩
            · by_cases hc3 : (!((sc.neighborIdxs wIdx).contains s.reactingAtomIdx)) = true
              · exact ⟨(false, s), by
                  simp only [PIisValid, hreact, hf]
                  rw [if_neg hv, if_neg hc0, if_neg hc1, if_neg hc2, if_pos hc3]⟩
              · exact ⟨(true, { s with reactants := payload [sc, t], valid := true, preprocessCount := s.preprocessCount + 1 }), by
                  simp only [PIisValid, hreact, hf]
                  rw [if_neg hv, if_neg hc0, if_neg hc1, if_neg hc2, if_neg hc3]⟩
  · intro payload s sc t hv hreact hany hcarb
    have hv2 : ¬ s.valid = true := by simp [hv]
    have hsome := findIdx?_isSome_of_any sc.atoms _ hany
    cases hf : sc.atoms.findIdx? (fun a => a.element == Element.X) with
    | none => rw [hf] at hsome; simp at hsome
    | some wIdx =>
      by_cases hc1 : (!s.reactingAtom.isAromatic
          || s.reactingAtom.element != Element.C
          || s.reactingAtom.totalNumHs == 0) = true
      · simp only [PSisValid, hreact, hf]
        rw [if_neg hv2, if_pos hc1]
      · by_cases hc2 : (!((pathAtomsLen3 sc s.reactingAtomIdx).contains wIdx
            && !((sc.neighborIdxs wIdx).contains wIdx))) = true
        · simp only [PSisValid, hreact, hf]
          rw [if_neg hv2, if_neg hc1, if_pos hc2]
        · have hc3 : (!hasCarbonylMatch t) = true := by simp [hcarb]
          simp only [PSisValid, hreact, hf]
          rw [if_neg hv2, if_neg hc1, if_neg hc2, if_pos hc3]
  · intro payload s sc t hv hreact hind
    have hv2 : ¬ s.valid = true := by simp [hv]
    have hc0 : (!s.indoleMatch) = true := by simp [hind]
    simp only [PIisValid, hreact]
    rw [if_neg hv2, if_pos hc0]

/-- A template with no carbonyl substructure. -/
def c8noCarbT : Mol := ⟨[⟨Element.C, false, 0, 0, 0, Hyb.SP3, ChiralTag.unspecified⟩], []⟩

/-- A `PictetSpangler` instance whose side chain has a wildcard but whose
template lacks the carbonyl. -/
def c8psNoCarb : PSState :=
  ⟨[c3psSC, c8noCarbT],
   ⟨Element.C, true, SC_EAS_MAP_NUM, 0, 3, Hyb.SP2, ChiralTag.unspecified⟩, 0, false, 0⟩

/-- A `PyrroloIndolene` instance whose recorded indole match is empty. -/
def c8piNoIndole : PIState :=
  ⟨[c3piSC, c3psT], false,
   ⟨Element.C, true, SC_EAS_MAP_NUM, 0, 4, Hyb.SP2, ChiralTag.unspecified⟩, 0, false, 0⟩

/-- Witness for `variant_motif_absence_amended` on concrete instances:
wildcard-bearing side chains never make the predicates raise, a missing
carbonyl and a missing indole each yield false. -/
theorem variant_motif_absence_amended_witness :
    (∃ r, PSisValid id c3psS0 = .ok r) ∧
    (∃ r, PIisValid id c3piS0 = .ok r) ∧
    PSisValid id c8psNoCarb = .ok (false, c8psNoCarb) ∧
    PIisValid id c8piNoIndole = .ok (false, c8piNoIndole) :=
  ⟨variant_motif_absence_amended.1 id c3psS0 c3psSC c3psT rfl (by decide),
   variant_motif_absence_amended.2.1 id c3piS0 c3piSC c3psT rfl (by decide),
   variant_motif_absence_amended.2.2.1 id c8psNoCarb c3psSC c8noCarbT rfl rfl
     (by decide) (by decide),
   variant_motif_absence_amended.2.2.2 id c8piNoIndole c3piSC c3psT rfl rfl rfl⟩

/-- C10: for `FriedelCafts` and `TsujiTrost`, the template argument never
influences validity or the (first-read) product: their `preprocess` replaces
the supplied template reactant with the fixed allylic fragment, and their
validity checks inspect only the reacting atom.  Two instances sharing the
side chain and reacting atom but built with any two template arguments
(including `None`) have identical `is_valid()` results and identical
products. -/
theorem template_independence (sc : Mol) (ra : Atom) (t1 t2 : Option Mol) :
    (FCisValid (SurfaceState.init sc t1 ra)).1 = (FCisValid (SurfaceState.init sc t2 ra)).1 ∧
    FCproductValue (SurfaceState.init sc t1 ra) = FCproductValue (SurfaceState.init sc t2 ra) ∧
    (TTisValid (SurfaceState.init sc t1 ra)).1 = (TTisValid (SurfaceState.init sc t2 ra)).1 ∧
    TTproductValue (SurfaceState.init sc t1 ra) = TTproductValue (SurfaceState.init sc t2 ra) := by
  by_cases hfc : (ra.element == Element.C && ra.totalNumHs != 0 && ra.isAromatic) = true <;>
    by_cases htt : ((ra.element == Element.N || ra.element == Element.O
        || ra.element == Element.S) && ra.totalNumHs > 0) = true <;>
      refine ⟨?_, ?_, ?_, ?_⟩ <;>
        simp [FCisValid, TTisValid, FCproductValue, TTproductValue, SurfaceState.init,
          surfacePreprocess, hfc, htt]

/-!
`Reaction.product` memoization (reactions.py lines 51-63).  The instance is
modelled generically: `inner` is the state shared by the instance's
`validation` callback and product generator, `cached` models the presence
and value of the `cached_product` attribute, and `genCount` counts
generator invocations (the claim is verified against a counting stub). -/

/-- Memoization state of one `Reaction` instance. -/
structure MemoState (σ α : Type) where
  inner : σ
  cached : Option (Option α)
  genCount : Nat

/-- One read of the `Reaction.product` property: return the cached attribute
when it exists; otherwise evaluate `bool(self)` (which calls
`self.validation()`), then on validity invoke the generator once and cache
its value, and on invalidity cache `None`. -/
def productRead {σ α : Type} (validation : σ → Bool × σ) (gen : σ → α × σ)
    (s : MemoState σ α) : Option α × MemoState σ α :=
  match s.cached with
  | some p => (p, s)
  | none =>
    let r := validation s.inner
    if r.1 then
      let g := gen r.2
      (some g.1, ⟨g.2, some (some g.1), s.genCount + 1⟩)
    else
      (none, ⟨r.2, some none, s.genCount⟩)

/-- The state after `n` consecutive reads of the `product` property. -/
def productReadIter {σ α : Type} (validation : σ → Bool × σ) (gen : σ → α × σ) :
    Nat → MemoState σ α → MemoState σ α
  | 0, s => s
  | n + 1, s => (productRead validation gen (productReadIter validation gen n s)).2

/-- Reading a `Reaction` whose cache attribute is set returns the cache and
leaves the instance untouched. -/
theorem productRead_cached {σ α : Type} (validation : σ → Bool × σ)
    (gen : σ → α × σ) (s : MemoState σ α) (p : Option α) (h : s.cached = some p) :
    productRead validation gen s = (p, s) := by
  unfold productRead
  rw [h]

/-- C4: starting from a fresh `Reaction` instance (no cache attribute, zero
generator invocations), every read from the second on returns exactly the
value and state of the first read, the generator has been invoked exactly
once when the validation was true and zero times when it was false, and in
the false case `None` is cached and returned on every read. -/
theorem reaction_product_memoized {σ α : Type} (validation : σ → Bool × σ)
    (gen : σ → α × σ) (s0 : MemoState σ α)
    (h0 : s0.cached = none) (hg : s0.genCount = 0) :
    (∀ n, productReadIter validation gen (n + 1) s0 = (productRead validation gen s0).2) ∧
    (∀ n, (productRead validation gen (productReadIter validation gen n s0)).1
        = (productRead validation gen s0).1) ∧
    (productRead validation gen s0).2.genCount
      = (if (validation s0.inner).1 then 1 else 0) ∧
    ((validation s0.inner).1 = false →
      (productRead validation gen s0).1 = none ∧
      (productRead validation gen s0).2.cached = some none) := by
  have hcache : (productRead validation gen s0).2.cached
      = some (productRead validation gen s0).1 := by
    unfold productRead
    rw [h0]
    by_cases hv : (validation s0.inner).1 = true <;> simp [hv]
  have hfix : productRead validation gen (productRead validation gen s0).2
      = productRead validation gen s0 := by
    rw [productRead_cached validation gen _ _ hcache]
  have hiter : ∀ n, productReadIter validation gen (n + 1) s0
      = (productRead validation gen s0).2 := by
    intro n
    induction n with
    | zero => rfl
    | succ n ih =>
      show (productRead validation gen (productReadIter validation gen (n + 1) s0)).2
        = (productRead validation gen s0).2
      rw [ih, hfix]
  refine ⟨hiter, ?_, ?_, ?_⟩
  · intro n
    cases n with
    | zero => rfl
    | succ n =>
      rw [hiter n, hfix]
  · unfold productRead
    rw [h0]
    by_cases hv : (validation s0.inner).1 = true <;> simp [hv, hg]
  · intro hv
    unfold productRead
    rw [h0]
    simp [hv]

/-- A validation stub advancing its inner counter. -/
def c4val : Nat → Bool × Nat := fun k => (true, k + 1)

/-- A call-counting product-generator stub. -/
def c4gen : Nat → Nat × Nat := fun k => (k * 2, k + 1)

/-- A fresh `Reaction` instance state for the memoization witness. -/
def c4s0 : MemoState Nat Nat := ⟨0, none, 0⟩

/-- An always-false validation stub. -/
def c4valFalse : Nat → Bool × Nat := fun k => (false, k + 1)

/-- Witness for `reaction_product_memoized`: three reads of a concrete
instance keep the first read's value and state and one generator call; an
invalid instance caches and returns `None`. -/
theorem reaction_product_memoized_witness :
    (productReadIter c4val c4gen 3 c4s0 = (productRead c4val c4gen c4s0).2 ∧
      (productRead c4val c4gen (productReadIter c4val c4gen 2 c4s0)).1
        = (productRead c4val c4gen c4s0).1 ∧
      (productRead c4val c4gen c4s0).2.genCount
        = (if (c4val c4s0.inner).1 then 1 else 0)) ∧
    ((productRead c4valFalse c4gen c4s0).1 = none ∧
      (productRead c4valFalse c4gen c4s0).2.cached = some none) := by
  obtain ⟨h1, h2, h3, -⟩ := reaction_product_memoized c4val c4gen c4s0 rfl rfl
  obtain ⟨-, -, -, h4⟩ := reaction_product_memoized c4valFalse c4gen c4s0 rfl rfl
  exact ⟨⟨h1 2, h2 2, h3⟩, h4 rfl⟩

/-!
`ReactionGenerator.create_reaction` (reactions.py lines 565-589): after
`tag_wildcard_atom`, the loop walks the side chain's atoms; atoms carrying
`SC_WILDCARD_MAP_NUM` are skipped, every other atom is tagged with
`SC_EAS_MAP_NUM`, the trial (variant construction on deep copies plus the
truthiness test) runs on that snapshot, and the tag is set back to 0 —
unconditionally, whether or not the trial produced a valid reaction.  Only
the atoms' map numbers evolve, so the loop is modelled on the list of map
numbers; the trial itself runs on deep copies and is modelled as an
arbitrary function `trial` of the tagged snapshot whose results are
collected but which cannot touch the original molecule. -/

/-- The tagging loop of `create_reaction` over the given atom positions,
returning the per-trial results and the final map numbers. -/
def trialsGo {ρ : Type} (trial : List Nat → ρ) (mapNums : List Nat) :
    List Nat → List ρ × List Nat
  | [] => ([], mapNums)
  | i :: rest =>
    if mapNums[i]! == SC_WILDCARD_MAP_NUM then trialsGo trial mapNums rest
    else
      let snap := mapNums.set i SC_EAS_MAP_NUM
      let res := trial snap
      let after := snap.set i 0
      let r := trialsGo trial after rest
      (res :: r.1, r.2)

/-- `create_reaction`'s full pass over the side chain's atoms in index order. -/
def createReactionTagging {ρ : Type} (trial : List Nat → ρ) (mapNums : List Nat) :
    List ρ × List Nat :=
  trialsGo trial mapNums (List.range mapNums.length)

theorem set_self_of_getElem_bang (l : List Nat) (i : Nat) (h : i < l.length)
    (hv : l[i]! = 0) : l.set i 0 = l := by
  have h2 : l[i] = 0 := by rwa [getElem!_pos l i h] at hv
  apply List.ext_getElem
  · simp
  · intro j hj hj2
    rw [List.getElem_set]
    split
    · rename_i he
      subst he
      exact h2.symm
    · rfl

theorem trialsGo_spec {ρ : Type} (trial : List Nat → ρ) (mapNums : List Nat)
    (hinit : ∀ v ∈ mapNums, v = 0 ∨ v = SC_WILDCARD_MAP_NUM) :
    ∀ idxs : List Nat, (∀ i ∈ idxs, i < mapNums.length) →
      (trialsGo trial mapNums idxs).2 = mapNums ∧
      ∀ r ∈ (trialsGo trial mapNums idxs).1,
        ∃ i ∈ idxs, mapNums[i]! ≠ SC_WILDCARD_MAP_NUM ∧
          r = trial (mapNums.set i SC_EAS_MAP_NUM) := by
  intro idxs
  induction idxs with
  | nil => intro hbound; exact ⟨rfl, by simp [trialsGo]⟩
  | cons i rest ih =>
    intro hbound
    have hi : i < mapNums.length := hbound i (by simp)
    by_cases hw : mapNums[i]! == SC_WILDCARD_MAP_NUM
    · have := ih (fun j hj => hbound j (by simp [hj]))
      refine ⟨?_, ?_⟩
      · simpa [trialsGo, hw] using this.1
      · intro r hr
        rw [show trialsGo trial mapNums (i :: rest) = trialsGo trial mapNums rest
            from by simp [trialsGo, hw]] at hr
        obtain ⟨j, hj, hjw, hjr⟩ := this.2 r hr
        exact ⟨j, by simp [hj], hjw, hjr⟩
    · have hzero : mapNums[i]! = 0 := by
        have hmem : mapNums[i]! ∈ mapNums := by
          rw [getElem!_pos mapNums i hi]
          exact List.getElem_mem hi
        rcases hinit _ hmem with h0 | h3
        · exact h0
        · exact absurd (by simp [h3]) hw
      have hafter : (mapNums.set i SC_EAS_MAP_NUM).set i 0 = mapNums := by
        rw [List.set_set]
        exact set_self_of_getElem_bang mapNums i hi hzero
      have hrec := ih (fun j hj => hbound j (by simp [hj]))
      refine ⟨?_, ?_⟩
      · show (trialsGo trial mapNums (i :: rest)).2 = mapNums
        simp only [trialsGo, hw, if_neg (by simpa using hw)]
        rw [hafter]
        exact hrec.1
      · intro r hr
        simp only [trialsGo, hw, if_neg (by simpa using hw)] at hr
        rw [hafter] at hr
        rcases List.mem_cons.mp hr with h | h
        · exact ⟨i, by simp, by simpa using hw, h⟩
        · obtain ⟨j, hj, hjw, hjr⟩ := hrec.2 r h
          exact ⟨j, by simp [hj], hjw, hjr⟩

theorem count_set_eas (l : List Nat) :
    ∀ i : Nat, i < l.length → (∀ v ∈ l, v ≠ SC_EAS_MAP_NUM) →
      (l.set i SC_EAS_MAP_NUM).count SC_EAS_MAP_NUM = 1 := by
  induction l with
  | nil => intro i h; simp at h
  | cons a rest ih =>
    intro i hi hall
    cases i with
    | zero =>
      have : rest.count SC_EAS_MAP_NUM = 0 := by
        rw [List.count_eq_zero]
        intro hmem
        exact hall _ (by simp [hmem]) rfl
      simp [List.set, List.count_cons, this]
    | succ i =>
      have hrest := ih i (by simpa using hi) (fun v hv => hall v (by simp [hv]))
      have hne : a ≠ SC_EAS_MAP_NUM := hall a (by simp)
      simp [List.set, List.count_cons, hrest, hne]

/-- C6: starting from a side chain whose atoms carry only the wildcard tag
(or no tag), every trial of `create_reaction` sees exactly the initial map
numbers plus the `SC_EAS_MAP_NUM` tag on its own atom — exactly one atom
carries the site tag during a trial, so no earlier trial's tag is visible —
and after the full loop the map numbers are restored to their initial
values, whatever the trials returned. -/
theorem create_reaction_tag_scoped {ρ : Type} (trial : List Nat → ρ)
    (mapNums : List Nat)
    (hinit : ∀ v ∈ mapNums, v = 0 ∨ v = SC_WILDCARD_MAP_NUM) :
    (createReactionTagging trial mapNums).2 = mapNums ∧
    ∀ s ∈ (createReactionTagging id mapNums).1,
      ∃ i, i < mapNums.length ∧ mapNums[i]! ≠ SC_WILDCARD_MAP_NUM ∧
        s = mapNums.set i SC_EAS_MAP_NUM ∧
        s.count SC_EAS_MAP_NUM = 1 := by
  have hb : ∀ i ∈ List.range mapNums.length, i < mapNums.length := by
    intro i hi
    simpa using hi
  refine ⟨(trialsGo_spec trial mapNums hinit _ hb).1, ?_⟩
  intro s hs
  obtain ⟨i, hi, hw, hr⟩ := (trialsGo_spec id mapNums hinit _ hb).2 s hs
  have hilt : i < mapNums.length := by simpa using hi
  refine ⟨i, hilt, hw, hr, ?_⟩
  rw [hr]
  show (mapNums.set i SC_EAS_MAP_NUM).count SC_EAS_MAP_NUM = 1
  apply count_set_eas mapNums i hilt
  intro v hv
  rcases hinit v hv with h | h <;> simp [h, SC_EAS_MAP_NUM, SC_WILDCARD_MAP_NUM]

/-- Witness for `create_reaction_tag_scoped` on a three-atom side chain
(wildcard tag at position 1): the loop restores the initial tags and each
trial snapshot carries exactly one site tag. -/
theorem create_reaction_tag_scoped_witness :
    (createReactionTagging (fun s => s.count SC_EAS_MAP_NUM)
        [0, SC_WILDCARD_MAP_NUM, 0]).2 = [0, SC_WILDCARD_MAP_NUM, 0] ∧
    ∀ s ∈ (createReactionTagging id [0, SC_WILDCARD_MAP_NUM, 0]).1,
      ∃ i, i < ([0, SC_WILDCARD_MAP_NUM, 0] : List Nat).length ∧
        ([0, SC_WILDCARD_MAP_NUM, 0] : List Nat)[i]! ≠ SC_WILDCARD_MAP_NUM ∧
        s = ([0, SC_WILDCARD_MAP_NUM, 0] : List Nat).set i SC_EAS_MAP_NUM ∧
        s.count SC_EAS_MAP_NUM = 1 :=
  create_reaction_tag_scoped (fun s => s.count SC_EAS_MAP_NUM)
    [0, SC_WILDCARD_MAP_NUM, 0] (by decide)

/-!
Driver records (`ReactionGenerator.accumulate_data`, reactions.py lines
536-563, and the `generate`/`generate_serial` drivers, lines 468-508).
Serialized binaries and SMARTS are opaque strings here. -/

/-- The `ReactionInfo` named tuple: serialized reaction, reacting-atom
index, reaction-type tag. -/
structure RxnInfo where
  binary : String
  rxnAtomIdx : Nat
  rxnType : String
deriving DecidableEq, Repr

/-- The side-chain document fields that `accumulate_data` reads. -/
structure SideChainRec where
  id : String
  parentId : String
  connAtomIdx : Nat
deriving DecidableEq, Repr

/-- The template document fields that `accumulate_data` reads. -/
structure TemplateRec where
  id : String
deriving DecidableEq, Repr

/-- One output document appended to `result_data`. -/
structure OutDoc where
  docId : String
  rxnType : String
  binary : String
  smarts : String
  rxnAtomIdx : Nat
  template : String
  scId : String
  scParent : String
  scConnAtomIdx : Nat
deriving DecidableEq, Repr

/-- `ReactionGenerator.accumulate_data`: the documents appended to
`result_data` for one batch.  `reactions` is the batch's insertion-ordered
reaction dictionary; `chunk` is `len(reactions) * templates.index(template)`
for a template batch and `len(reactions)` (with sentinel template id
set to the sentinel) for a template-independent batch;
the document id concatenates the side chain's id, the decimal of
`chunk + i`, and the first letter of the reaction-type tag (`rxn_type[0]`,
rendered as `take 1` — the tags in use are the non-empty kind names). -/
def accumulateDocs (templates : List TemplateRec) (reactions : List (String × RxnInfo))
    (sideChain : SideChainRec) (template : Option TemplateRec) : List OutDoc :=
  let chunk : Nat :=
    match template with
    | some t => reactions.length * templates.indexOf t
    | none => reactions.length
  let applicable : String :=
    match template with
    | some t => t.id
    | none => "all"
  reactions.enum.map fun p =>
    ⟨sideChain.id ++ toString (chunk + p.1) ++ p.2.2.rxnType.take 1,
     p.2.2.rxnType, p.2.2.binary, p.2.1, p.2.2.rxnAtomIdx, applicable,
     sideChain.id, sideChain.parentId, sideChain.connAtomIdx⟩

/-- C7: the `j`-th record emitted by `accumulate_data` for the `j`-th entry
`(smarts, info)` of the batch mapping has identifier
`side_chain._id ++ str(j + chunk) ++ info.rxnType[0]`, where `chunk` is
`len(reactions)` times the template's position in the templates list for a
template batch — with the record's template field set to the template's id —
and `len(reactions)` with the template field set to the sentinel for a
template-independent batch. -/
theorem accumulate_data_identifiers (templates : List TemplateRec)
    (reactions : List (String × RxnInfo)) (sideChain : SideChainRec)
    (j : Nat) (smarts : String) (info : RxnInfo)
    (hj : reactions[j]? = some (smarts, info)) :
    (∀ t, t ∈ templates →
      (accumulateDocs templates reactions sideChain (some t))[j]? =
        some ⟨sideChain.id ++ toString (j + reactions.length * templates.indexOf t)
                ++ info.rxnType.take 1,
              info.rxnType, info.binary, smarts, info.rxnAtomIdx, t.id,
              sideChain.id, sideChain.parentId, sideChain.connAtomIdx⟩) ∧
    ((accumulateDocs templates reactions sideChain none)[j]? =
      some ⟨sideChain.id ++ toString (j + reactions.length)
              ++ info.rxnType.take 1,
            info.rxnType, info.binary, smarts, info.rxnAtomIdx, ("all"),
            sideChain.id, sideChain.parentId, sideChain.connAtomIdx⟩) := by
  constructor
  · intro t ht
    simp only [accumulateDocs, List.getElem?_map, List.getElem?_enum, hj,
      Option.map_some']
    rw [Nat.add_comm j (reactions.length * templates.indexOf t)]
  · simp only [accumulateDocs, List.getElem?_map, List.getElem?_enum, hj,
      Option.map_some']
    rw [Nat.add_comm j reactions.length]

/-- Witness for `accumulate_data_identifiers` on a concrete two-reaction
batch and a two-template list. -/
theorem accumulate_data_identifiers_witness :
    ((accumulateDocs [⟨"t1"⟩, ⟨"t2"⟩]
        [(("smA"), ⟨"binA", 5, "friedel_crafts"⟩), (("smB"), ⟨"binB", 7, "tsuji_trost"⟩)]
        ⟨"sc9", "psc1", 3⟩ (some ⟨"t2"⟩))[1]? =
      some ⟨("sc9" ++ toString (1 + 2 * 1) ++ ("tsuji_trost").take 1),
            "tsuji_trost", "binB", "smB", 7, "t2", "sc9", "psc1", 3⟩) ∧
    ((accumulateDocs [⟨"t1"⟩, ⟨"t2"⟩]
        [(("smA"), ⟨"binA", 5, "friedel_crafts"⟩), (("smB"), ⟨"binB", 7, "tsuji_trost"⟩)]
        ⟨"sc9", "psc1", 3⟩ none)[1]? =
      some ⟨("sc9" ++ toString (1 + 2) ++ ("tsuji_trost").take 1),
            "tsuji_trost", "binB", "smB", 7, ("all"),
            "sc9", "psc1", 3⟩) := by
  have h := accumulate_data_identifiers [⟨"t1"⟩, ⟨"t2"⟩]
    [(("smA"), ⟨"binA", 5, "friedel_crafts"⟩), (("smB"), ⟨"binB", 7, "tsuji_trost"⟩)]
    ⟨"sc9", "psc1", 3⟩ 1 ("smB") ⟨"binB", 7, "tsuji_trost"⟩ rfl
  refine ⟨?_, ?_⟩
  · have h1 := h.1 ⟨"t2"⟩ (by simp)
    rw [h1]
    rfl
  · have h2 := h.2
    rw [h2]
    rfl

/-- The `NewReactions` named tuple returned by
`ReactionGenerator.create_reaction`: the reaction mapping plus
back-references to the side chain and template arguments. -/
structure NewReactionsB where
  reactions : List (String × RxnInfo)
  sideChain : SideChainRec
  template : Option TemplateRec

/-- `ReactionGenerator.generate` (reactions.py lines 468-488): the pool
dispatches `create_reaction` over `product(side_chains, dependent_rxns,
templates)` and then over `product(side_chains, independent_rxns)`;
`starmap_async(...).get()` yields the batches in argument order (never in
completion order), and each batch is folded into `result_data` by
`accumulate_data(rxns, side_chain, template)` using the batch's own
side-chain and template fields.  `create` stands for the static
`create_reaction`, a deterministic function of its arguments. -/
def generateParallel {κ : Type} (sideChains : List SideChainRec)
    (templates : List TemplateRec) (deps indeps : List κ)
    (create : SideChainRec → κ → Option TemplateRec → NewReactionsB) : List OutDoc :=
  ((sideChains.flatMap fun sc => deps.flatMap fun r => templates.map fun t =>
      create sc r (some t)).flatMap fun b =>
        accumulateDocs templates b.reactions b.sideChain b.template)
  ++ ((sideChains.flatMap fun sc => indeps.map fun r => create sc r none).flatMap fun b =>
        accumulateDocs templates b.reactions b.sideChain b.template)

/-- `ReactionGenerator.generate_serial` (reactions.py lines 490-508): direct
iteration per side chain — all templates and dependent kinds first
(accumulating with the loop's own side chain and template variables), then
the independent kinds (accumulating with the batch's template field). -/
def generateSerial {κ : Type} (sideChains : List SideChainRec)
    (templates : List TemplateRec) (deps indeps : List κ)
    (create : SideChainRec → κ → Option TemplateRec → NewReactionsB) : List OutDoc :=
  sideChains.flatMap fun sc =>
    (templates.flatMap fun t => deps.flatMap fun r =>
      accumulateDocs templates (create sc r (some t)).reactions sc (some t))
    ++ (indeps.flatMap fun r =>
      accumulateDocs templates (create sc r none).reactions sc (create sc r none).template)

/-- C5: given the same side chains, templates and reaction kinds in the same
list order, the serial driver accumulates exactly the records of the
parallel driver (the collection of records — and hence the collection of
record identifiers — is identical; only the interleaving order inside
`result_data` differs, and identifiers never depend on completion order).
`create_reaction` echoes its side-chain and template arguments into the
returned batch, which is the `hecho` hypothesis. -/
theorem generate_parallel_serial_equiv {κ : Type} (sideChains : List SideChainRec)
    (templates : List TemplateRec) (deps indeps : List κ)
    (create : SideChainRec → κ → Option TemplateRec → NewReactionsB)
    (hecho : ∀ sc r t, (create sc r t).sideChain = sc ∧ (create sc r t).template = t) :
    (generateSerial sideChains templates deps indeps create).Perm
      (generateParallel sideChains templates deps indeps create) ∧
    ((generateSerial sideChains templates deps indeps create).map OutDoc.docId).Perm
      ((generateParallel sideChains templates deps indeps create).map OutDoc.docId) := by
  have hsc : ∀ sc r t, (create sc r t).sideChain = sc := fun sc r t => (hecho sc r t).1
  have ht : ∀ sc r t, (create sc r t).template = t := fun sc r t => (hecho sc r t).2
  have hperm : (generateSerial sideChains templates deps indeps create).Perm
      (generateParallel sideChains templates deps indeps create) := by
    rw [← Multiset.coe_eq_coe]
    unfold generateParallel generateSerial
    simp only [List.flatMap_assoc, List.flatMap_map, hsc, ht]
    simp only [← Multiset.coe_bind, ← Multiset.coe_add]
    rw [Multiset.bind_add]
    congr 1
    apply Multiset.bind_congr
    intro sc hsc2
    exact Multiset.bind_bind _ _
  exact ⟨hperm, hperm.map OutDoc.docId⟩

/-- A concrete deterministic stand-in for `create_reaction` that echoes its
arguments into the returned batch, as the static method does. -/
def c5create : SideChainRec → Nat → Option TemplateRec → NewReactionsB :=
  fun sc r t => ⟨[(("sm"), ⟨("b"), r, ("friedel_crafts")⟩)], sc, t⟩

/-- Witness for `generate_parallel_serial_equiv` on two side chains, two
templates, one dependent and one independent kind. -/
theorem generate_parallel_serial_equiv_witness :
    (generateSerial [⟨"s1", "p1", 0⟩, ⟨"s2", "p2", 1⟩] [⟨"t1"⟩, ⟨"t2"⟩]
        [0] [1] c5create).Perm
      (generateParallel [⟨"s1", "p1", 0⟩, ⟨"s2", "p2", 1⟩] [⟨"t1"⟩, ⟨"t2"⟩]
        [0] [1] c5create) ∧
    ((generateSerial [⟨"s1", "p1", 0⟩, ⟨"s2", "p2", 1⟩] [⟨"t1"⟩, ⟨"t2"⟩]
        [0] [1] c5create).map OutDoc.docId).Perm
      ((generateParallel [⟨"s1", "p1", 0⟩, ⟨"s2", "p2", 1⟩] [⟨"t1"⟩, ⟨"t2"⟩]
        [0] [1] c5create).map OutDoc.docId) :=
  generate_parallel_serial_equiv [⟨"s1", "p1", 0⟩, ⟨"s2", "p2", 1⟩]
    [⟨"t1"⟩, ⟨"t2"⟩] [0] [1] c5create (fun _ _ _ => ⟨rfl, rfl⟩)

end CPMG
